import Mathlib

/-!
Verification of the scheduling and recurrence-advancement engine of the
notify_me repository (src/src/scheduler/mod.rs, src/src/event/mod.rs).

The embedding is a shallow one: calendar timestamps are modelled as plain
records of year, month, day, hour, minute, second on a single timeline
(chrono timezone handling and DST are outside the model, matching the
DST-naive reading of the specification); SQLite and the desktop
notification call are modelled as an environment of call outcomes; a
Rust panic (an `unwrap` failure or an `unreachable!()` arm) is modelled
as `Option.none`.
-/

namespace NotifyMe

/-- Recurrence kinds, from `enum RecurrencePattern` in src/src/event/mod.rs. -/
inductive RecurrencePattern where
  | Daily
  | Weekly
  | Monthly
  | Once
  deriving DecidableEq, Repr

/-- A calendar timestamp: the naive-calendar content of a chrono
`DateTime<Local>` value (year, month, day, hour, minute, second). -/
structure DT where
  year : Int
  month : Nat
  day : Nat
  hour : Nat
  minute : Nat
  second : Nat
  deriving DecidableEq, Repr

/-- Gregorian leap-year rule, as used by chrono. -/
def isLeap (y : Int) : Bool :=
  y % 4 == 0 && (y % 100 != 0 || y % 400 == 0)

/-- Number of days of month `m` of year `y` (0 for an out-of-range month). -/
def daysInMonth (y : Int) (m : Nat) : Nat :=
  match m with
  | 1 => 31
  | 2 => if isLeap y then 29 else 28
  | 3 => 31
  | 4 => 30
  | 5 => 31
  | 6 => 30
  | 7 => 31
  | 8 => 31
  | 9 => 30
  | 10 => 31
  | 11 => 30
  | 12 => 31
  | _ => 0

/-- A timestamp is valid when its fields denote a real calendar instant;
every date obtained from a successful chrono RFC 3339 parse is of this
form. -/
def ValidDT (d : DT) : Prop :=
  1 ≤ d.month ∧ d.month ≤ 12 ∧ 1 ≤ d.day ∧ d.day ≤ daysInMonth d.year d.month ∧
    d.hour < 24 ∧ d.minute < 60 ∧ d.second < 60

instance (d : DT) : Decidable (ValidDT d) := by
  unfold ValidDT; infer_instance

/-- Calendar successor of a date: the next calendar day, time of day kept. -/
def succDay (d : DT) : DT :=
  if d.day < daysInMonth d.year d.month then
    { d with day := d.day + 1 }
  else if d.month < 12 then
    { d with month := d.month + 1, day := 1 }
  else
    { d with year := d.year + 1, month := 1, day := 1 }

/-- Add `n` calendar days; models chrono `Duration::days(n)` on the naive
calendar timeline (DST-naive, per the specification). -/
def addDays : Nat → DT → DT
  | 0, d => d
  | n + 1, d => addDays n (succDay d)

/-- Number of proleptic Gregorian leap years in the interval from year 0
(inclusive) to year `y` (exclusive); chosen so that crossing year `y`
adds exactly one day when `y` is leap. -/
def leapsBefore (y : Int) : Int :=
  (y + 3) / 4 - (y + 99) / 100 + (y + 399) / 400

/-- Days of year `y` that lie before the first day of month `m`. -/
def daysBeforeMonth (y : Int) (m : Nat) : Int :=
  let c : Int := if isLeap y then 1 else 0
  match m with
  | 1 => 0
  | 2 => 31
  | 3 => 59 + c
  | 4 => 90 + c
  | 5 => 120 + c
  | 6 => 151 + c
  | 7 => 181 + c
  | 8 => 212 + c
  | 9 => 243 + c
  | 10 => 273 + c
  | 11 => 304 + c
  | 12 => 334 + c
  | _ => 0

/-- Linear day number of a date, Rata Die style: two valid dates are one
calendar day apart exactly when their day numbers differ by one.  This
is the specification-side yardstick against which the Daily and Weekly
arms are measured. -/
def toDayNumber (d : DT) : Int :=
  365 * d.year + leapsBefore d.year + daysBeforeMonth d.year d.month + (d.day : Int)

/-- chrono `with_year`: replace the year, `none` when the (month, day)
pair does not exist in the target year (Feb 29 of a non-leap year). -/
def with_year (d : DT) (y : Int) : Option DT :=
  if d.day ≤ daysInMonth y d.month then some { d with year := y } else none

/-- chrono `with_month`: replace the month, `none` when the month is out
of range or the day does not exist in the target month. -/
def with_month (d : DT) (m : Nat) : Option DT :=
  if 1 ≤ m ∧ m ≤ 12 ∧ d.day ≤ daysInMonth d.year m then
    some { d with month := m }
  else
    none

/-- The pure date computation of `Scheduler::update_event_date`
(src/src/scheduler/mod.rs lines 94 to 113).  `none` models a panic: the
`unreachable!()` arm for `Once`, or a failing `.unwrap()` on
`with_year`.  The `Monthly` arm is literal: `next_month` is
`month % 12 + 1`, the year advances exactly when `next_month` is 1, and
`with_month` failure falls back to the original date via `unwrap_or`. -/
def update_event_date_calc (p : RecurrencePattern) (d : DT) : Option DT :=
  match p with
  | .Daily => some (addDays 1 d)
  | .Weekly => some (addDays 7 d)
  | .Monthly =>
    let next_month := d.month % 12 + 1
    let next_year := if next_month = 1 then d.year + 1 else d.year
    match with_year d next_year with
    | none => none
    | some d1 => some ((with_month d1 next_month).getD d)
  | .Once => none

/-- In-memory event, from `struct Event` in src/src/event/mod.rs. -/
structure Event where
  id : Int
  name : String
  message : String
  recurrence_pattern : RecurrencePattern
  date : DT
  deleted_at : Option DT
  deriving DecidableEq, Repr

/-- A stored row of the `events` table as the SELECT of
`check_and_notify` reads it: the recurrence column is still the raw
string, the date columns are already parsed timestamps (a date string a
successful chrono parse accepts is exactly a valid timestamp, so the
parse step itself is not remodelled). -/
structure Row where
  id : Int
  name : String
  message : String
  recurrence_pattern : String
  date : DT
  deleted_at : Option DT
  deriving DecidableEq, Repr

/-- `RecurrencePattern::column_result` (src/src/event/mod.rs lines 39 to
54): the four known strings convert, anything else is a FromSql error. -/
def column_result (s : String) : Except String RecurrencePattern :=
  match s with
  | "once" => .ok .Once
  | "daily" => .ok .Daily
  | "weekly" => .ok .Weekly
  | "monthly" => .ok .Monthly
  | _ => .error "unexpected value"

/-- The row-to-Event closure passed to `query_map` in
`Scheduler::check_and_notify`: builds an `Event` from a row, failing
when the recurrence column does not convert. -/
def mapRow (r : Row) : Except String Event :=
  match column_result r.recurrence_pattern with
  | .error e => .error e
  | .ok p => .ok ⟨r.id, r.name, r.message, p, r.date, r.deleted_at⟩

/-- Truncation of a timestamp to minute resolution, as the SQL
`strftime` with format `%Y-%m-%d %H:%M` does. -/
def minuteKey (d : DT) : Int × Nat × Nat × Nat × Nat :=
  (d.year, d.month, d.day, d.hour, d.minute)

/-- Add `n` minutes with carry into hours and calendar days; models the
SQLite `datetime` modifier `+10 minutes` on the shared timeline. -/
def addMinutes (n : Nat) (d : DT) : DT :=
  let t := d.minute + n
  let h := d.hour + t / 60
  addDays (h / 24) { d with hour := h % 24, minute := t % 60 }

/-- The WHERE clause of the due-event SELECT in
`Scheduler::check_and_notify` (src/src/scheduler/mod.rs lines 28 to 31):
the date truncated to the minute equals now, or now plus ten minutes,
and `deleted_at` IS NULL. -/
def dueRows (now : DT) (rows : List Row) : List Row :=
  rows.filter fun r =>
    (decide (minuteKey r.date = minuteKey now) ||
      decide (minuteKey r.date = minuteKey (addMinutes 10 now))) &&
      r.deleted_at.isNone

/-- Outcomes of the external calls a tick makes: statement preparation,
running the SELECT, one notification per event, and the UPDATE
execution per event id. -/
structure TickEnv where
  selectPrepare : Except String Unit
  queryRun : Except String Unit
  table : List Row
  notifyEvent : Event → Except String Unit
  updatePrepare : Except String Unit
  updateExec : Int → Except String Unit

/-- The event list `check_and_notify` iterates over: the rows the query
matched, mapped through the row closure with mapping failures silently
dropped (`filter_map(|event| event.ok())` in the source). -/
def selectedEvents (now : DT) (env : TickEnv) : List Event :=
  (dueRows now env.table).filterMap fun r => (mapRow r).toOption

instance : DecidableEq (Except String Unit) := fun a b =>
  match a, b with
  | .ok (), .ok () => isTrue rfl
  | .ok (), .error _ => isFalse (fun hc => by cases hc)
  | .error _, .ok () => isFalse (fun hc => by cases hc)
  | .error x, .error y =>
    if h : x = y then isTrue (by rw [h]) else isFalse (fun hc => h (by cases hc; rfl))

/-- What one call of `check_and_notify` returned and did: the returned
result, the ids it notified in order, and the (id, new date) updates it
persisted. -/
structure TickOutcome where
  result : Except String Unit
  notified : List Int
  updated : List (Int × DT)
  deriving DecidableEq, Repr

/-- `Scheduler::update_event_date` (src/src/scheduler/mod.rs lines 85 to
119): prepare the UPDATE, compute the new date (a `none` is a panic),
execute.  Returns the persisted date on success. -/
def update_event_date (env : TickEnv) (e : Event) : Option (Except String DT) :=
  match env.updatePrepare with
  | .error err => some (.error err)
  | .ok _ =>
    match update_event_date_calc e.recurrence_pattern e.date with
    | none => none
    | some nd =>
      match env.updateExec e.id with
      | .ok _ => some (.ok nd)
      | .error err => some (.error err)

/-- The per-event loop of `Scheduler::check_and_notify`
(src/src/scheduler/mod.rs lines 59 to 83).  For each event: show the
notification (an error returns it at once); a `Once` event is left
alone and the loop continues; any other recurrence calls
`update_event_date`, and on success the source returns `Ok(())`
immediately, ending the batch. -/
def processDue (env : TickEnv) : List Event → Option TickOutcome
  | [] => some ⟨.ok (), [], []⟩
  | e :: rest =>
    match env.notifyEvent e with
    | .error err => some ⟨.error err, [], []⟩
    | .ok _ =>
      match e.recurrence_pattern with
      | .Once =>
        match processDue env rest with
        | none => none
        | some o => some ⟨o.result, e.id :: o.notified, o.updated⟩
      | _ =>
        match update_event_date env e with
        | none => none
        | some (.ok nd) => some ⟨.ok (), [e.id], [(e.id, nd)]⟩
        | some (.error err) => some ⟨.error err, [e.id], []⟩

/-- `Scheduler::check_and_notify` (src/src/scheduler/mod.rs lines 26 to
83): prepare the SELECT, run it, then process the due events. -/
def check_and_notify (now : DT) (env : TickEnv) : Option TickOutcome :=
  match env.selectPrepare with
  | .error err => some ⟨.error err, [], []⟩
  | .ok _ =>
    match env.queryRun with
    | .error err => some ⟨.error err, [], []⟩
    | .ok _ => processDue env (selectedEvents now env)

/-- The log line one iteration of `Scheduler::start` emits: failures are
logged with `error!`, success with `info!`, and either way the loop
goes on to the next tick. -/
def tickLog (o : TickOutcome) : String :=
  match o.result with
  | .error err => "[error] " ++ err
  | .ok _ => "[info] Successfully ticked"

/-- `Scheduler::start` (src/src/scheduler/mod.rs lines 121 to 133),
unrolled for `n` ticks: each tick runs `check_and_notify` on that
tick's clock and environment and logs the outcome; `none` models a
panic escaping and killing the process. -/
def runTicks (nows : Nat → DT) (envs : Nat → TickEnv) : Nat → Option (List String)
  | 0 => some []
  | n + 1 =>
    match runTicks nows envs n with
    | none => none
    | some logs =>
      match check_and_notify (nows n) (envs n) with
      | none => none
      | some o => some (logs ++ [tickLog o])

/-- A concrete clock instant used by the concrete scenarios below. -/
def cnow : DT := ⟨2024, 5, 15, 9, 30, 0⟩

/-- A stored row whose recurrence string is not one of the four known
values, due at `cnow` and not soft-deleted. -/
def badRow : Row := ⟨7, "r", "m", "yearly", cnow, none⟩

/-- Environment holding only `badRow`, with every external call
succeeding. -/
def envBad : TickEnv := ⟨.ok (), .ok (), [badRow], fun _ => .ok (), .ok (), fun _ => .ok ()⟩

/-- Environment whose SELECT preparation fails. -/
def envPrepErr : TickEnv := ⟨.error "boom", .ok (), [], fun _ => .ok (), .ok (), fun _ => .ok ()⟩

/-- A soft-deleted row whose date matches the current minute. -/
def rowDeleted : Row := ⟨4, "d", "md", "daily", cnow, some cnow⟩

/-- Environment holding only the soft-deleted row. -/
def envNoMatch : TickEnv := ⟨.ok (), .ok (), [rowDeleted], fun _ => .ok (), .ok (), fun _ => .ok ()⟩

/-- Two well-formed daily rows, both due at `cnow`. -/
def rowA : Row := ⟨1, "a", "ma", "daily", cnow, none⟩

/-- Second due daily row, id 2. -/
def rowB : Row := ⟨2, "b", "mb", "daily", cnow, none⟩

/-- Environment holding `rowA` and `rowB`, with every notifier and
store call succeeding. -/
def envTwo : TickEnv := ⟨.ok (), .ok (), [rowA, rowB], fun _ => .ok (), .ok (), fun _ => .ok ()⟩

/-- A due `Once` row, id 3. -/
def rowOnce : Row := ⟨3, "c", "mc", "once", cnow, none⟩

/-- Environment holding `rowOnce` and `rowB`, with every call
succeeding. -/
def envOnceFirst : TickEnv := ⟨.ok (), .ok (), [rowOnce, rowB], fun _ => .ok (), .ok (), fun _ => .ok ()⟩

/-- Environment holding `rowA` and `rowB` whose notifier always fails. -/
def envNotifyFail : TickEnv :=
  ⟨.ok (), .ok (), [rowA, rowB], fun _ => .error "nope", .ok (), fun _ => .ok ()⟩

/-!  Theorems.  First the calendar lemmas, then the per-claim results. -/

/-- Unfolding of the Boolean leap-year test into arithmetic. -/
lemma isLeap_iff (y : Int) :
    isLeap y = true ↔ (y % 4 = 0 ∧ (y % 100 ≠ 0 ∨ y % 400 = 0)) := by
  simp [isLeap]

/-- Crossing year `y` adds one leap day exactly when `y` is leap. -/
lemma leapsBefore_succ (y : Int) :
    leapsBefore (y + 1) = leapsBefore y + (if isLeap y then 1 else 0) := by
  by_cases h : isLeap y = true
  · rw [if_pos h]
    rw [isLeap_iff] at h
    unfold leapsBefore
    omega
  · rw [if_neg h]
    rw [isLeap_iff] at h
    unfold leapsBefore
    omega

/-- The cumulative month table advances by the month length. -/
lemma daysBeforeMonth_succ (y : Int) (m : Nat) (h1 : 1 ≤ m) (h2 : m ≤ 11) :
    daysBeforeMonth y (m + 1) = daysBeforeMonth y m + (daysInMonth y m : Int) := by
  interval_cases m <;>
    simp only [daysBeforeMonth, daysInMonth] <;>
    by_cases h : isLeap y = true <;> simp [h]

/-- All months have at least 28 days. -/
lemma daysInMonth_pos (y : Int) (m : Nat) (h1 : 1 ≤ m) (h2 : m ≤ 12) :
    1 ≤ daysInMonth y m := by
  interval_cases m <;> simp only [daysInMonth] <;> first
    | omega
    | (by_cases h : isLeap y = true <;> simp [h])

/-- December has 31 days in every year. -/
lemma daysInMonth_december (y : Int) : daysInMonth y 12 = 31 := rfl

/-- January has 31 days in every year. -/
lemma daysInMonth_january (y : Int) : daysInMonth y 1 = 31 := rfl

/-- The calendar successor moves the day number forward by exactly one
on valid dates. -/
lemma toDayNumber_succDay (d : DT) (hd : ValidDT d) :
    toDayNumber (succDay d) = toDayNumber d + 1 := by
  obtain ⟨h1, h2, h3, h4, h5, h6, h7⟩ := hd
  unfold succDay
  by_cases hlt : d.day < daysInMonth d.year d.month
  · rw [if_pos hlt]
    simp only [toDayNumber]
    push_cast
    ring
  · rw [if_neg hlt]
    have hday : d.day = daysInMonth d.year d.month := le_antisymm h4 (not_lt.mp hlt)
    by_cases hm : d.month < 12
    · rw [if_pos hm]
      have hstep := daysBeforeMonth_succ d.year d.month h1 (by omega)
      simp only [toDayNumber]
      simp only [DT.mk.injEq] at *
      push_cast
      omega
    · rw [if_neg hm]
      have hm12 : d.month = 12 := by omega
      have h31 : d.day = 31 := by rw [hday, hm12, daysInMonth_december]
      have hL := leapsBefore_succ d.year
      simp only [toDayNumber, hm12, h31, daysBeforeMonth]
      by_cases hc : isLeap d.year = true <;> simp [hc] at hL ⊢ <;> omega

/-- The calendar successor of a valid date is valid. -/
lemma validDT_succDay (d : DT) (hd : ValidDT d) : ValidDT (succDay d) := by
  obtain ⟨h1, h2, h3, h4, h5, h6, h7⟩ := hd
  unfold succDay
  by_cases hlt : d.day < daysInMonth d.year d.month
  · rw [if_pos hlt]
    unfold ValidDT
    dsimp only
    exact ⟨h1, h2, by omega, by omega, h5, h6, h7⟩
  · rw [if_neg hlt]
    by_cases hm : d.month < 12
    · rw [if_pos hm]
      unfold ValidDT
      dsimp only
      exact ⟨by omega, by omega, le_refl 1,
        daysInMonth_pos d.year (d.month + 1) (by omega) (by omega), h5, h6, h7⟩
    · rw [if_neg hm]
      unfold ValidDT
      dsimp only
      refine ⟨by omega, by omega, le_refl 1, ?_, h5, h6, h7⟩
      rw [daysInMonth_january]
      omega

/-- The calendar successor keeps the time of day. -/
lemma succDay_time (d : DT) :
    (succDay d).hour = d.hour ∧ (succDay d).minute = d.minute ∧
      (succDay d).second = d.second := by
  unfold succDay
  by_cases hlt : d.day < daysInMonth d.year d.month
  · rw [if_pos hlt]; exact ⟨rfl, rfl, rfl⟩
  · rw [if_neg hlt]
    by_cases hm : d.month < 12
    · rw [if_pos hm]; exact ⟨rfl, rfl, rfl⟩
    · rw [if_neg hm]; exact ⟨rfl, rfl, rfl⟩

/-- Adding days preserves validity. -/
lemma validDT_addDays (n : Nat) (d : DT) (hd : ValidDT d) : ValidDT (addDays n d) := by
  induction n generalizing d with
  | zero => exact hd
  | succ k ih => exact ih (succDay d) (validDT_succDay d hd)

/-- Adding `n` days moves the day number forward by `n` on valid dates. -/
lemma toDayNumber_addDays (n : Nat) (d : DT) (hd : ValidDT d) :
    toDayNumber (addDays n d) = toDayNumber d + n := by
  induction n generalizing d with
  | zero => simp [addDays]
  | succ k ih =>
    have := ih (succDay d) (validDT_succDay d hd)
    have hstep := toDayNumber_succDay d hd
    simp only [addDays]
    omega

/-- Adding days keeps the time of day. -/
lemma addDays_time (n : Nat) (d : DT) :
    (addDays n d).hour = d.hour ∧ (addDays n d).minute = d.minute ∧
      (addDays n d).second = d.second := by
  induction n generalizing d with
  | zero => exact ⟨rfl, rfl, rfl⟩
  | succ k ih =>
    obtain ⟨ha, hb, hc⟩ := ih (succDay d)
    obtain ⟨hx, hy, hz⟩ := succDay_time d
    simp only [addDays]
    omega

/-- Unfolding of the Monthly arm of the calculator. -/
lemma calc_monthly_unfold (d : DT) :
    update_event_date_calc .Monthly d =
      match with_year d (if d.month % 12 + 1 = 1 then d.year + 1 else d.year) with
      | none => none
      | some d1 => some ((with_month d1 (d.month % 12 + 1)).getD d) := rfl

/-- The wrap-around month arithmetic of the source agrees with the plain
successor description. -/
lemma monthly_next_month_eq (m : Nat) (h1 : 1 ≤ m) (h2 : m ≤ 12) :
    m % 12 + 1 = if m = 12 then 1 else m + 1 := by
  by_cases h : m = 12
  · simp [h]
  · rw [if_neg h]
    have : m % 12 = m := Nat.mod_eq_of_lt (by omega)
    omega

/-- On a valid date, `with_year` at the same year is the identity. -/
lemma with_year_same (d : DT) (h4 : d.day ≤ daysInMonth d.year d.month) :
    with_year d d.year = some d := by
  unfold with_year
  rw [if_pos h4]

/-- Monthly advance when the day of month exists in the following month:
same day and time, month advanced with December wrapping to January, and
the year incremented exactly on the December wrap. -/
lemma calc_monthly_day_exists (d : DT) (hd : ValidDT d)
    (hfit : d.day ≤ daysInMonth (if d.month = 12 then d.year + 1 else d.year)
        (if d.month = 12 then 1 else d.month + 1)) :
    update_event_date_calc .Monthly d =
      some { d with year := if d.month = 12 then d.year + 1 else d.year,
                    month := if d.month = 12 then 1 else d.month + 1 } := by
  obtain ⟨h1, h2, h3, h4, _, _, _⟩ := hd
  rw [calc_monthly_unfold]
  by_cases h12 : d.month = 12
  · have h31 : d.day ≤ 31 := by rw [h12, daysInMonth_december] at h4; exact h4
    have hy : with_year d (d.year + 1) = some { d with year := d.year + 1 } := by
      unfold with_year
      rw [h12, daysInMonth_december]
      rw [if_pos h31]
    simp only [h12]
    norm_num
    rw [hy]
    unfold with_month
    dsimp only
    rw [daysInMonth_january]
    rw [if_pos ⟨le_refl 1, by omega, h31⟩]
    rfl
  · have hmod : d.month % 12 = d.month := Nat.mod_eq_of_lt (by omega)
    simp only [h12, if_false] at hfit ⊢
    rw [hmod]
    rw [if_neg (by omega : ¬(d.month + 1 = 1))]
    rw [with_year_same d h4]
    unfold with_month
    dsimp only
    rw [if_pos ⟨by omega, by omega, hfit⟩]
    rfl

/-- Monthly advance when the day of month does not exist in the
following month: the computation falls back to the original date. -/
lemma calc_monthly_day_missing (d : DT) (hd : ValidDT d)
    (hmiss : daysInMonth (if d.month = 12 then d.year + 1 else d.year)
        (if d.month = 12 then 1 else d.month + 1) < d.day) :
    update_event_date_calc .Monthly d = some d := by
  obtain ⟨h1, h2, h3, h4, _, _, _⟩ := hd
  have h12 : d.month ≠ 12 := by
    intro h
    rw [h, daysInMonth_december] at h4
    rw [h] at hmiss
    simp [daysInMonth] at hmiss
    omega
  rw [calc_monthly_unfold]
  have hmod : d.month % 12 = d.month := Nat.mod_eq_of_lt (by omega)
  simp only [h12, if_false] at hmiss
  rw [hmod]
  rw [if_neg (by omega : ¬(d.month + 1 = 1))]
  rw [with_year_same d h4]
  unfold with_month
  dsimp only
  rw [if_neg (by omega : ¬(1 ≤ d.month + 1 ∧ d.month + 1 ≤ 12 ∧ d.day ≤ daysInMonth d.year (d.month + 1)))]
  rfl

/-- The calculator never panics on a valid date with a recurrence other
than `Once`: the `with_year` unwrap always succeeds, since the year only
changes on a December wrap and December dates exist in every year. -/
lemma calc_isSome (p : RecurrencePattern) (d : DT) (hd : ValidDT d)
    (hp : p ≠ .Once) : (update_event_date_calc p d).isSome = true := by
  obtain ⟨h1, h2, h3, h4, _, _, _⟩ := hd
  cases p with
  | Once => exact absurd rfl hp
  | Daily => rfl
  | Weekly => rfl
  | Monthly =>
    rw [calc_monthly_unfold]
    by_cases h12 : d.month = 12
    · have hy : with_year d (if d.month % 12 + 1 = 1 then d.year + 1 else d.year) =
          some { d with year := d.year + 1 } := by
        rw [h12]
        norm_num
        unfold with_year
        rw [h12, daysInMonth_december] at h4 ⊢
        rw [if_pos h4]
      rw [hy]
      rfl
    · have hmod : d.month % 12 = d.month := Nat.mod_eq_of_lt (by omega)
      rw [hmod, if_neg (by omega : ¬(d.month + 1 = 1)), with_year_same d h4]
      rfl

/-- Dropping the error side of an `Except` keeps exactly the
successes. -/
lemma exceptToOption_ok {α β : Type} (x : Except α β) (b : β) :
    x.toOption = some b ↔ x = .ok b := by
  cases x <;> simp [Except.toOption]

/-- Dropping the error side of a row mapping. -/
lemma mapRow_toOption (r : Row) (e : Event) :
    (mapRow r).toOption = some e ↔ mapRow r = .ok e :=
  exceptToOption_ok (mapRow r) e

/-- A mapped event keeps the id, date and deletion mark of its row. -/
lemma mapRow_fields (r : Row) (e : Event) (h : mapRow r = .ok e) :
    e.id = r.id ∧ e.date = r.date ∧ e.deleted_at = r.deleted_at := by
  unfold mapRow at h
  cases hc : column_result r.recurrence_pattern with
  | error s => rw [hc] at h; cases h
  | ok p =>
    rw [hc] at h
    cases h
    exact ⟨rfl, rfl, rfl⟩

/-- Membership in the SQL filter of the due-event SELECT. -/
lemma mem_dueRows (now : DT) (rows : List Row) (r : Row) :
    r ∈ dueRows now rows ↔
      r ∈ rows ∧ r.deleted_at = none ∧
        (minuteKey r.date = minuteKey now ∨
          minuteKey r.date = minuteKey (addMinutes 10 now)) := by
  unfold dueRows
  simp only [List.mem_filter, Bool.and_eq_true, Bool.or_eq_true, decide_eq_true_eq,
    Option.isNone_iff_eq_none]
  tauto

/-- Membership in the event list a tick iterates over. -/
lemma mem_selectedEvents (now : DT) (env : TickEnv) (e : Event) :
    e ∈ selectedEvents now env ↔
      ∃ r, r ∈ dueRows now env.table ∧ mapRow r = .ok e := by
  unfold selectedEvents
  simp only [List.mem_filterMap]
  constructor
  · rintro ⟨r, hr, ho⟩
    exact ⟨r, hr, (mapRow_toOption r e).mp ho⟩
  · rintro ⟨r, hr, ho⟩
    exact ⟨r, hr, (mapRow_toOption r e).mpr ho⟩

/-- Every selected event has a valid date when the table does. -/
lemma selectedEvents_valid (now : DT) (env : TickEnv)
    (hval : ∀ r ∈ env.table, ValidDT r.date) :
    ∀ e ∈ selectedEvents now env, ValidDT e.date := by
  intro e he
  rw [mem_selectedEvents] at he
  obtain ⟨r, hr, hm⟩ := he
  obtain ⟨-, hdate, -⟩ := mapRow_fields r e hm
  rw [hdate]
  exact hval r ((mem_dueRows now env.table r).mp hr).1

/-- The UPDATE step never panics on a valid, non-Once event. -/
lemma update_event_date_isSome (env : TickEnv) (e : Event) (hv : ValidDT e.date)
    (hp : e.recurrence_pattern ≠ .Once) :
    (update_event_date env e).isSome = true := by
  unfold update_event_date
  cases env.updatePrepare with
  | error err => rfl
  | ok u =>
    have hs := calc_isSome e.recurrence_pattern e.date hv hp
    cases hc : update_event_date_calc e.recurrence_pattern e.date with
    | none => rw [hc] at hs; cases hs
    | some nd => cases env.updateExec e.id <;> rfl

/-- The per-event loop never panics when every due event has a valid
date. -/
lemma processDue_isSome (env : TickEnv) (events : List Event)
    (hval : ∀ e ∈ events, ValidDT e.date) :
    (processDue env events).isSome = true := by
  induction events with
  | nil => rfl
  | cons e rest ih =>
    have hve : ValidDT e.date := hval e (List.mem_cons_self e rest)
    have hvr : ∀ x ∈ rest, ValidDT x.date := fun x hx => hval x (List.mem_cons_of_mem e hx)
    unfold processDue
    cases hn : env.notifyEvent e with
    | error err => rfl
    | ok u =>
      cases hp : e.recurrence_pattern with
      | Once =>
        have hr := ih hvr
        cases hrec : processDue env rest with
        | none => rw [hrec] at hr; cases hr
        | some o => rfl
      | Daily =>
        have hu := update_event_date_isSome env e hve (by rw [hp]; intro h; cases h)
        cases hud : update_event_date env e with
        | none => rw [hud] at hu; cases hu
        | some res => cases res <;> rfl
      | Weekly =>
        have hu := update_event_date_isSome env e hve (by rw [hp]; intro h; cases h)
        cases hud : update_event_date env e with
        | none => rw [hud] at hu; cases hu
        | some res => cases res <;> rfl
      | Monthly =>
        have hu := update_event_date_isSome env e hve (by rw [hp]; intro h; cases h)
        cases hud : update_event_date env e with
        | none => rw [hud] at hu; cases hu
        | some res => cases res <;> rfl

/-- One whole call of `check_and_notify` never panics when the stored
dates are valid. -/
lemma check_and_notify_isSome (now : DT) (env : TickEnv)
    (hval : ∀ r ∈ env.table, ValidDT r.date) :
    (check_and_notify now env).isSome = true := by
  unfold check_and_notify
  cases env.selectPrepare with
  | error err => rfl
  | ok u =>
    cases env.queryRun with
    | error err => rfl
    | ok v => exact processDue_isSome env _ (selectedEvents_valid now env hval)

/-- A failing notification at the head of the batch: the loop returns
that error at once, with nothing notified and nothing persisted from
that point of the batch on. -/
lemma processDue_notify_error (env : TickEnv) (e : Event) (rest : List Event)
    (err : String) (hn : env.notifyEvent e = .error err) :
    processDue env (e :: rest) = some ⟨.error err, [], []⟩ := by
  unfold processDue
  rw [hn]

/-- Soundness of the persisted updates: every update a batch performed
belongs to an event of the batch whose notification succeeded and whose
recurrence is not `Once`, and the new date is the calculator output for
that event. -/
lemma processDue_updated_sound (env : TickEnv) (events : List Event) (o : TickOutcome)
    (h : processDue env events = some o) :
    ∀ p ∈ o.updated, ∃ ev, ev ∈ events ∧ ev.id = p.1 ∧
      env.notifyEvent ev = .ok () ∧ ev.recurrence_pattern ≠ .Once ∧
      update_event_date_calc ev.recurrence_pattern ev.date = some p.2 := by
  induction events generalizing o with
  | nil =>
    cases h
    intro p hp
    cases hp
  | cons e rest ih =>
    unfold processDue at h
    cases hn : env.notifyEvent e with
    | error err =>
      rw [hn] at h
      cases h
      intro p hp
      cases hp
    | ok u =>
      cases u
      rw [hn] at h
      cases hp : e.recurrence_pattern
      case Once =>
        rw [hp] at h
        dsimp only at h
        cases hrec : processDue env rest with
        | none => rw [hrec] at h; cases h
        | some o2 =>
          rw [hrec] at h
          cases h
          intro p hpmem
          dsimp only at hpmem
          obtain ⟨ev, hev, hid, hok, hpat, hcalc⟩ := ih o2 hrec p hpmem
          exact ⟨ev, List.mem_cons_of_mem e hev, hid, hok, hpat, hcalc⟩
      all_goals
        rw [hp] at h
        dsimp only at h
        rw [update_event_date] at h
        rw [hp] at h
        cases hup : env.updatePrepare with
        | error err =>
          rw [hup] at h
          dsimp only at h
          cases h
          intro p hpmem
          cases hpmem
        | ok v =>
          cases v
          rw [hup] at h
          dsimp only at h
          cases hcalc : update_event_date_calc e.recurrence_pattern e.date with
          | none =>
            rw [hp] at hcalc
            rw [hcalc] at h
            cases h
          | some nd =>
            rw [hp] at hcalc
            rw [hcalc] at h
            dsimp only at h
            cases hex : env.updateExec e.id with
            | ok w =>
              cases w
              rw [hex] at h
              cases h
              intro p hpmem
              dsimp only at hpmem
              rw [List.mem_singleton] at hpmem
              subst hpmem
              exact ⟨e, List.mem_cons_self e rest, rfl, hn,
                (by rw [hp]; intro hc; cases hc), (by rw [hp]; exact hcalc)⟩
            | error err =>
              rw [hex] at h
              cases h
              intro p hpmem
              cases hpmem

/-- Unrolled tick loop: with valid stored dates every tick completes,
leaving one log line per tick, whatever the tick outcomes are. -/
lemma runTicks_total (nows : Nat → DT) (envs : Nat → TickEnv)
    (hval : ∀ k, ∀ r ∈ (envs k).table, ValidDT r.date) (n : Nat) :
    ∃ logs, runTicks nows envs n = some logs ∧ logs.length = n := by
  induction n with
  | zero => exact ⟨[], rfl, rfl⟩
  | succ k ih =>
    obtain ⟨logs, h1, h2⟩ := ih
    have hs := check_and_notify_isSome (nows k) (envs k) (hval k)
    cases hc : check_and_notify (nows k) (envs k) with
    | none => rw [hc] at hs; cases hs
    | some o =>
      refine ⟨logs ++ [tickLog o], ?_, ?_⟩
      · unfold runTicks
        rw [h1, hc]
      · simp [h2]

/-- Claim C1, evaluated at a failing input: two due daily events, ids 1
and 2, with every notifier and store call succeeding.  Event 2 is
selected as due, yet `check_and_notify` returns success having notified
and updated only event 1, because the source returns `Ok(())` right
after the first successful date update.  The claim says no due event in
the batch is skipped when all notifier and store calls succeed. -/
theorem claim_C1_batch_cut_short :
    (⟨2, "b", "mb", .Daily, cnow, none⟩ : Event) ∈ selectedEvents cnow envTwo ∧
    check_and_notify cnow envTwo =
      some ⟨.ok (), [1], [(1, ⟨2024, 5, 16, 9, 30, 0⟩)]⟩ := by
  constructor
  · decide
  · rfl

/-- Claim C2: for a valid Monthly event whose day of month exists in the
following month, the computed next date keeps the day of month and the
time of day, advances the month by one with December wrapping to
January, and increments the year exactly when the source month is
December. -/
theorem claim_C2_monthly_regular (d : DT) (hd : ValidDT d)
    (hfit : d.day ≤ daysInMonth (if d.month = 12 then d.year + 1 else d.year)
        (if d.month = 12 then 1 else d.month + 1)) :
    update_event_date_calc .Monthly d =
      some { d with year := if d.month = 12 then d.year + 1 else d.year,
                    month := if d.month = 12 then 1 else d.month + 1 } :=
  calc_monthly_day_exists d hd hfit

/-- Witness for C2 at December 31, 2024: the next date is January 31,
2025. -/
theorem claim_C2_witness :
    ValidDT ⟨2024, 12, 31, 9, 0, 0⟩ ∧
    update_event_date_calc .Monthly ⟨2024, 12, 31, 9, 0, 0⟩ =
      some ⟨2025, 1, 31, 9, 0, 0⟩ := by
  refine ⟨by decide, ?_⟩
  have h := claim_C2_monthly_regular ⟨2024, 12, 31, 9, 0, 0⟩ (by decide) (by decide)
  simpa using h

/-- Claim C3: for a valid Monthly event whose day of month does not
exist in the following month, the computed next date is the original
date unchanged. -/
theorem claim_C3_monthly_unchanged (d : DT) (hd : ValidDT d)
    (hmiss : daysInMonth (if d.month = 12 then d.year + 1 else d.year)
        (if d.month = 12 then 1 else d.month + 1) < d.day) :
    update_event_date_calc .Monthly d = some d :=
  calc_monthly_day_missing d hd hmiss

/-- Witness for C3 at January 31, 2024: February 2024 has 29 days, so
the date stays January 31, 2024. -/
theorem claim_C3_witness :
    ValidDT ⟨2024, 1, 31, 9, 0, 0⟩ ∧
    update_event_date_calc .Monthly ⟨2024, 1, 31, 9, 0, 0⟩ =
      some ⟨2024, 1, 31, 9, 0, 0⟩ :=
  ⟨by decide, claim_C3_monthly_unchanged ⟨2024, 1, 31, 9, 0, 0⟩ (by decide) (by decide)⟩

/-- Claim C4: on a valid date, the Daily arm moves the date forward by
exactly one calendar day and the Weekly arm by exactly seven calendar
days, measured on the linear day number, with the time of day unchanged
in both cases. -/
theorem claim_C4_daily_weekly (d : DT) (hd : ValidDT d) :
    (∃ d1, update_event_date_calc .Daily d = some d1 ∧
      toDayNumber d1 = toDayNumber d + 1 ∧
      d1.hour = d.hour ∧ d1.minute = d.minute ∧ d1.second = d.second) ∧
    (∃ d7, update_event_date_calc .Weekly d = some d7 ∧
      toDayNumber d7 = toDayNumber d + 7 ∧
      d7.hour = d.hour ∧ d7.minute = d.minute ∧ d7.second = d.second) := by
  constructor
  · obtain ⟨h1, h2, h3⟩ := addDays_time 1 d
    have hn := toDayNumber_addDays 1 d hd
    exact ⟨addDays 1 d, rfl, by omega, h1, h2, h3⟩
  · obtain ⟨h1, h2, h3⟩ := addDays_time 7 d
    have hn := toDayNumber_addDays 7 d hd
    exact ⟨addDays 7 d, rfl, by omega, h1, h2, h3⟩

/-- Witness for C4 at `cnow`. -/
theorem claim_C4_witness :
    ValidDT cnow ∧
    ((∃ d1, update_event_date_calc .Daily cnow = some d1 ∧
      toDayNumber d1 = toDayNumber cnow + 1 ∧
      d1.hour = cnow.hour ∧ d1.minute = cnow.minute ∧ d1.second = cnow.second) ∧
    (∃ d7, update_event_date_calc .Weekly cnow = some d7 ∧
      toDayNumber d7 = toDayNumber cnow + 7 ∧
      d7.hour = cnow.hour ∧ d7.minute = cnow.minute ∧ d7.second = cnow.second)) :=
  ⟨by decide, claim_C4_daily_weekly cnow (by decide)⟩

/-- Claim C5: the due-event selection returns exactly the stored events
that are not soft-deleted and whose date, truncated to the minute,
equals the current minute or the current minute plus ten minutes; and
when nothing matches it returns the empty list rather than an error. -/
theorem claim_C5_due_selector (now : DT) (env : TickEnv) :
    (∀ e : Event, e ∈ selectedEvents now env ↔
      ((∃ r ∈ env.table, mapRow r = .ok e) ∧ e.deleted_at = none ∧
        (minuteKey e.date = minuteKey now ∨
          minuteKey e.date = minuteKey (addMinutes 10 now)))) ∧
    ((∀ r ∈ env.table, ¬(r.deleted_at = none ∧
        (minuteKey r.date = minuteKey now ∨
          minuteKey r.date = minuteKey (addMinutes 10 now)))) →
      selectedEvents now env = []) := by
  constructor
  · intro e
    rw [mem_selectedEvents]
    constructor
    · rintro ⟨r, hr, hm⟩
      rw [mem_dueRows] at hr
      obtain ⟨hmem, hdel, hdate⟩ := hr
      obtain ⟨hid, hd, hda⟩ := mapRow_fields r e hm
      exact ⟨⟨r, hmem, hm⟩, by rw [hda]; exact hdel, by rw [hd]; exact hdate⟩
    · rintro ⟨⟨r, hmem, hm⟩, hdel, hdate⟩
      obtain ⟨hid, hd, hda⟩ := mapRow_fields r e hm
      refine ⟨r, ?_, hm⟩
      rw [mem_dueRows]
      exact ⟨hmem, by rw [← hda]; exact hdel, by rw [← hd]; exact hdate⟩
  · intro hnone
    have hempty : dueRows now env.table = [] := by
      rw [List.eq_nil_iff_forall_not_mem]
      intro r hr
      rw [mem_dueRows] at hr
      exact hnone r hr.1 ⟨hr.2.1, hr.2.2⟩
    unfold selectedEvents
    rw [hempty]
    rfl

/-- Witness for C5: a soft-deleted row whose date matches the minute is
still excluded, and the selection is the empty list, not an error. -/
theorem claim_C5_witness : selectedEvents cnow envNoMatch = [] :=
  (claim_C5_due_selector cnow envNoMatch).2 (by decide)

/-- Claim C6, counterexample: a due, non-deleted row whose recurrence
string is unknown makes the row mapping fail, yet `check_and_notify`
returns success with the row silently dropped — the failure is
swallowed, not propagated as an error result. -/
theorem claim_C6_counterexample :
    column_result badRow.recurrence_pattern = .error "unexpected value" ∧
    badRow ∈ dueRows cnow envBad.table ∧
    check_and_notify cnow envBad = some ⟨.ok (), [], []⟩ := by
  refine ⟨rfl, by decide, rfl⟩

/-- Claim C6 as amended: failures to prepare or to run the SELECT are
propagated to the caller as error results, while a failure to map a
returned row is not propagated — the affected row is silently dropped,
so every event the selection yields comes from a row whose mapping
succeeded. -/
theorem claim_C6_propagation (now : DT) (env : TickEnv) (err : String) :
    (env.selectPrepare = .error err →
      check_and_notify now env = some ⟨.error err, [], []⟩) ∧
    (env.selectPrepare = .ok () → env.queryRun = .error err →
      check_and_notify now env = some ⟨.error err, [], []⟩) ∧
    (∀ e ∈ selectedEvents now env, ∃ r ∈ dueRows now env.table, mapRow r = .ok e) := by
  refine ⟨?_, ?_, ?_⟩
  · intro h
    unfold check_and_notify
    rw [h]
  · intro h1 h2
    unfold check_and_notify
    rw [h1]
    dsimp only
    rw [h2]
  · intro e he
    exact (mem_selectedEvents now env e).mp he

/-- Witness for the amended C6: a failing SELECT preparation is returned
as that error. -/
theorem claim_C6_witness :
    check_and_notify cnow envPrepErr = some ⟨.error "boom", [], []⟩ :=
  (claim_C6_propagation cnow envPrepErr "boom").1 rfl

/-- Claim C7: a failing notifier call makes `check_and_notify` return
that error at once — nothing is persisted for that event and no later
event of the batch is notified or advanced — and, in any batch, a date
is persisted only for events whose notification succeeded. -/
theorem claim_C7_notify_failure (env : TickEnv) (e : Event) (rest : List Event)
    (err : String) (events : List Event) (o : TickOutcome) :
    (env.notifyEvent e = .error err →
      processDue env (e :: rest) = some ⟨.error err, [], []⟩) ∧
    (processDue env events = some o →
      ∀ p ∈ o.updated, ∃ ev ∈ events, ev.id = p.1 ∧ env.notifyEvent ev = .ok ()) := by
  constructor
  · exact processDue_notify_error env e rest err
  · intro h p hp
    obtain ⟨ev, hmem, hid, hok, -, -⟩ := processDue_updated_sound env events o h p hp
    exact ⟨ev, hmem, hid, hok⟩

/-- Witness for C7: with a notifier that always fails, a one-event batch
returns the notifier error with nothing notified or updated. -/
theorem claim_C7_witness :
    processDue envNotifyFail [⟨1, "a", "ma", .Daily, cnow, none⟩] =
      some ⟨.error "nope", [], []⟩ :=
  (claim_C7_notify_failure envNotifyFail ⟨1, "a", "ma", .Daily, cnow, none⟩ [] "nope"
    [] ⟨.ok (), [], []⟩).1 rfl

/-- Claim C8: the date-update operation is never invoked for a `Once`
event: every persisted update of a batch belongs to an event whose
recurrence is not `Once`, and under distinct ids no update carries the
id of a `Once` event. -/
theorem claim_C8_once_untouched (env : TickEnv) (events : List Event) (o : TickOutcome) :
    processDue env events = some o →
    (∀ p ∈ o.updated, ∃ ev ∈ events, ev.id = p.1 ∧ ev.recurrence_pattern ≠ .Once) ∧
    (events.Pairwise (fun a b => a.id ≠ b.id) →
      ∀ ev ∈ events, ev.recurrence_pattern = .Once →
        ∀ p ∈ o.updated, p.1 ≠ ev.id) := by
  intro h
  constructor
  · intro p hp
    obtain ⟨ev, hmem, hid, -, hpat, -⟩ := processDue_updated_sound env events o h p hp
    exact ⟨ev, hmem, hid, hpat⟩
  · intro hpw ev hmem honce p hp heq
    obtain ⟨ev2, hmem2, hid2, -, hpat2, -⟩ := processDue_updated_sound env events o h p hp
    have hne : ev2 ≠ ev := fun hc => hpat2 (by rw [hc]; exact honce)
    have hforall := List.Pairwise.forall
      (fun (a b : Event) (hab : a.id ≠ b.id) => hab.symm) hpw
    exact hforall hmem2 hmem hne (hid2.trans heq)

/-- Witness for C8: a batch of a `Once` event (id 3) followed by a Daily
event (id 2); the single persisted update does not carry id 3. -/
theorem claim_C8_witness :
    ((2 : Int), (⟨2024, 5, 16, 9, 30, 0⟩ : DT)).fst ≠ (3 : Int) :=
  (claim_C8_once_untouched envOnceFirst
      [⟨3, "c", "mc", .Once, cnow, none⟩, ⟨2, "b", "mb", .Daily, cnow, none⟩]
      ⟨.ok (), [3, 2], [(2, ⟨2024, 5, 16, 9, 30, 0⟩)]⟩ rfl).2 (by decide)
    ⟨3, "c", "mc", .Once, cnow, none⟩ (by decide) rfl
    ((2 : Int), ⟨2024, 5, 16, 9, 30, 0⟩) (by decide)

/-- Claim C9: with valid stored dates, the tick loop runs forever — for
every tick count the unrolled loop completes, each tick contributing
exactly one log line whether its outcome was an error or a success, and
no tick outcome terminates the loop. -/
theorem claim_C9_loop_forever (nows : Nat → DT) (envs : Nat → TickEnv)
    (hval : ∀ k, ∀ r ∈ (envs k).table, ValidDT r.date) (n : Nat) :
    ∃ logs, runTicks nows envs n = some logs ∧ logs.length = n :=
  runTicks_total nows envs hval n

/-- Witness for C9: three ticks under an always-failing notifier still
produce three log lines. -/
theorem claim_C9_witness :
    ∃ logs, runTicks (fun _ => cnow) (fun _ => envNotifyFail) 3 = some logs ∧
      logs.length = 3 :=
  claim_C9_loop_forever (fun _ => cnow) (fun _ => envNotifyFail)
    (by
      intro k r hr
      simp only [envNotifyFail] at hr
      simp only [List.mem_cons, List.mem_singleton] at hr
      rcases hr with rfl | rfl | hr
      · decide
      · decide
      · cases hr) 3

/-- Claim C10: on a valid date, the date computation never panics for a
recurrence other than `Once`: the `unreachable!()` arm is not taken and
the `with_year` unwrap succeeds, since the year argument differs from
the event year only for December, whose dates exist in every year. -/
theorem claim_C10_no_panic (p : RecurrencePattern) (d : DT) (hd : ValidDT d)
    (hp : p ≠ .Once) :
    ∃ d1, update_event_date_calc p d = some d1 := by
  have hs := calc_isSome p d hd hp
  cases hc : update_event_date_calc p d with
  | none => rw [hc] at hs; cases hs
  | some d1 => exact ⟨d1, rfl⟩

/-- Witness for C10 at the last instant of 2024 with Monthly
recurrence. -/
theorem claim_C10_witness :
    ValidDT ⟨2024, 12, 31, 23, 59, 59⟩ ∧
    ∃ d1, update_event_date_calc .Monthly ⟨2024, 12, 31, 23, 59, 59⟩ = some d1 :=
  ⟨by decide, claim_C10_no_panic .Monthly ⟨2024, 12, 31, 23, 59, 59⟩ (by decide)
    (by intro hc; cases hc)⟩

end NotifyMe
